import Mathlib

/-!
Verification of the proxygen HTTP/3 upstream session multiplexer and the
HPACK codec helpers, against the natural-language specification.

The HPACK codec helpers (`compress::prepareHeaders`, `HPACKCodec::encode`)
are embedded directly from
`src/proxygen/lib/http/codec/compress/HPACKCodec.cpp`.  The upstream
session core (`HQUpstreamSession` and its collaborators) is not present in
the source tree — only its test file is — so those components are modelled
from the specification, as indicated on each definition.
-/

/- ===================================================================
   Part 1: HPACK codec helpers, embedded from HPACKCodec.cpp
   =================================================================== -/

/-- An input header as handed to the codec: a (name, value) pair of
strings, mirroring `proxygen::compress::Header` (which holds pointers to
the two strings). -/
structure Header where
  name : String
  value : String
deriving DecidableEq

/-- An HPACK-API header, mirroring `proxygen::HPACKHeader`; its
constructor lowercases the header name (see the comment in
`prepareHeaders`: "HPACKHeader automatically lowercases"). -/
structure HPACKHeader where
  name : String
  value : String
deriving DecidableEq

/-- Character-wise lowercasing of a string, as performed by the
`HPACKHeader` constructor on the header name. -/
def lowercase (s : String) : String :=
  String.mk (s.data.map Char.toLower)

/-- Conversion of one input header to the HPACK API format, as performed
by `converted.emplace_back(*h.name, *h.value)` in `prepareHeaders`:
the name is lowercased, the value is kept verbatim. -/
def mkHPACKHeader (h : Header) : HPACKHeader :=
  { name := lowercase h.name, value := h.value }

/-- The modulus of the `uint32_t` accumulator in `prepareHeaders`:
2 to the power 32. -/
def uint32Mod : Nat := 4294967296

/-- The loop of `compress::prepareHeaders` (HPACKCodec.cpp lines 33-38):
walks the input headers, appends each converted header to the output
vector and accumulates `header.name.size() + header.value.size() + 2`
into the running uncompressed size.  The accumulator `uncompressed` is a
`uint32_t`, so each `+=` wraps modulo 2 to the power 32. -/
def prepareHeadersLoop : List Header → Nat → List HPACKHeader → Nat × List HPACKHeader
  | [], uncompressed, acc => (uncompressed, acc)
  | h :: rest, uncompressed, acc =>
    let header := mkHPACKHeader h
    prepareHeadersLoop rest
      ((uncompressed + header.name.length + header.value.length + 2) % uint32Mod)
      (acc ++ [header])

/-- The function `compress::prepareHeaders` (HPACKCodec.cpp lines 27-40):
clears the `converted` output vector (so the previous contents, passed
here as an argument, are discarded), converts every input header, and
returns the accumulated `uint32_t` uncompressed size (wrapping modulo
2 to the power 32) together with the new contents of the output
vector. -/
def prepareHeaders (headers : List Header) (converted : List HPACKHeader) :
    Nat × List HPACKHeader :=
  prepareHeadersLoop headers 0 []

/-- The `HTTPHeaderSize` record held by the codec in `encodedSize_`:
uncompressed size, compressed size, and running compressed-block size. -/
structure HTTPHeaderSize where
  uncompressed : Nat
  compressed : Nat
  compressedBlock : Nat
deriving DecidableEq

/-- The state of an `HPACKCodec` relevant to encoding: the `encodedSize_`
record updated on every `encode` call. -/
structure HPACKCodec where
  encodedSize : HTTPHeaderSize
deriving DecidableEq

/-- The method `HPACKCodec::encode` (HPACKCodec.cpp lines 47-54):
records the `uint32_t` value returned by
`compress::prepareHeaders(headers, prepared)` as the uncompressed encoded
size, hands the prepared headers to the wire-level encoder (out of scope
here; its output length arrives as `compressedLen`), and records the
compressed size via `recordCompressedSize`. -/
def HPACKCodec.encode (codec : HPACKCodec) (headers : List Header)
    (prepared : List HPACKHeader) (compressedLen : Nat) : HPACKCodec :=
  let res := prepareHeaders headers prepared
  { codec with
    encodedSize :=
      { uncompressed := res.1
        compressed := compressedLen
        compressedBlock := codec.encodedSize.compressedBlock + compressedLen } }

/-- The uncompressed size contributed by one input header: name length
plus value length plus 2. -/
def headerUncompressedSize (h : Header) : Nat :=
  h.name.length + h.value.length + 2

/-- The sum of the per-header uncompressed sizes over a header list. -/
def headerListUncompressedSize : List Header → Nat
  | [] => 0
  | h :: rest => headerUncompressedSize h + headerListUncompressedSize rest

theorem lowercase_length (s : String) : (lowercase s).length = s.length := by
  cases s with
  | mk data =>
    show (data.map Char.toLower).length = data.length
    simp

theorem mkHPACKHeader_sizes (h : Header) :
    (mkHPACKHeader h).name.length + (mkHPACKHeader h).value.length + 2 =
      headerUncompressedSize h := by
  simp [mkHPACKHeader, headerUncompressedSize, lowercase_length]

theorem prepareHeadersLoop_spec (headers : List Header) (u : Nat)
    (acc : List HPACKHeader) (hu : u < uint32Mod) :
    prepareHeadersLoop headers u acc =
      ((u + headerListUncompressedSize headers) % uint32Mod,
       acc ++ headers.map mkHPACKHeader) := by
  induction headers generalizing u acc with
  | nil =>
    simp [prepareHeadersLoop, headerListUncompressedSize, Nat.mod_eq_of_lt hu]
  | cons h rest ih =>
    have hmodpos : 0 < uint32Mod := by
      simp [uint32Mod]
    simp only [prepareHeadersLoop,
      ih _ _ (Nat.mod_lt _ hmodpos), headerListUncompressedSize, List.map_cons,
      Prod.mk.injEq]
    constructor
    · rw [Nat.mod_add_mod]
      have := mkHPACKHeader_sizes h
      congr 1
      omega
    · simp

/-- C10 (amended): `compress::prepareHeaders` returns, in its `uint32_t`
result, the sum over all input headers of (name length + value length +
2) reduced modulo 2 to the power 32 — equal to the plain sum whenever
that sum fits in 32 bits — and leaves the output vector holding exactly
one converted HPACKHeader per input header, its previous contents
cleared; `HPACKCodec::encode` records exactly this value as the
uncompressed encoded size on every call. -/
theorem prepareHeaders_uncompressed_size_mod (headers : List Header)
    (converted : List HPACKHeader) (codec : HPACKCodec) (compressedLen : Nat) :
    (prepareHeaders headers converted).1 =
      headerListUncompressedSize headers % uint32Mod ∧
    (headerListUncompressedSize headers < uint32Mod →
      (prepareHeaders headers converted).1 = headerListUncompressedSize headers) ∧
    (prepareHeaders headers converted).2 = headers.map mkHPACKHeader ∧
    (HPACKCodec.encode codec headers converted compressedLen).encodedSize.uncompressed =
      headerListUncompressedSize headers % uint32Mod := by
  have h0 : (0 : Nat) < uint32Mod := by
    simp [uint32Mod]
  have hspec := prepareHeadersLoop_spec headers 0 [] h0
  refine ⟨?_, ?_, ?_, ?_⟩
  · simp [prepareHeaders, hspec]
  · intro hlt
    simp [prepareHeaders, hspec, Nat.mod_eq_of_lt hlt]
  · simp [prepareHeaders, hspec]
  · simp [HPACKCodec.encode, prepareHeaders, hspec]

theorem prepareHeaders_uncompressed_size_mod_witness :
    ((prepareHeaders [{ name := "Host", value := "example.com" }] []).1 =
      headerListUncompressedSize [{ name := "Host", value := "example.com" }] %
        uint32Mod ∧
    (headerListUncompressedSize [{ name := "Host", value := "example.com" }] <
        uint32Mod →
      (prepareHeaders [{ name := "Host", value := "example.com" }] []).1 =
        headerListUncompressedSize [{ name := "Host", value := "example.com" }]) ∧
    (prepareHeaders [{ name := "Host", value := "example.com" }] []).2 =
      [{ name := "Host", value := "example.com" }].map mkHPACKHeader ∧
    (HPACKCodec.encode
      { encodedSize := { uncompressed := 0, compressed := 0, compressedBlock := 0 } }
      [{ name := "Host", value := "example.com" }] [] 5).encodedSize.uncompressed =
      headerListUncompressedSize [{ name := "Host", value := "example.com" }] %
        uint32Mod) :=
  prepareHeaders_uncompressed_size_mod
    [{ name := "Host", value := "example.com" }] []
    { encodedSize := { uncompressed := 0, compressed := 0, compressedBlock := 0 } } 5

/-- A header whose name is 2 to the power 32 characters long: its
uncompressed size contribution overflows the `uint32_t` accumulator. -/
def overflowHeader : Header :=
  { name := String.mk (List.replicate 4294967296 'a'), value := "" }

theorem headerListUncompressedSize_single (h : Header) :
    headerListUncompressedSize [h] = h.name.length + h.value.length + 2 := by
  simp [headerListUncompressedSize, headerUncompressedSize]

theorem prepareHeaders_single (h : Header) :
    (prepareHeaders [h] []).1 =
      (h.name.length + h.value.length + 2) % uint32Mod := by
  have h0 : (0 : Nat) < uint32Mod := by
    simp [uint32Mod]
  have hspec := congrArg Prod.fst (prepareHeadersLoop_spec [h] 0 [] h0)
  simpa [prepareHeaders, headerListUncompressedSize, headerUncompressedSize]
    using hspec

/-- C10 counterexample: the claim as stated — the returned uncompressed
size equals the unbounded sum of (name length + value length + 2) — fails
at a single header whose name is 2 to the power 32 characters long: the
`uint32_t` accumulator wraps and `prepareHeaders` returns 2, not
2 to the power 32 plus 2. -/
theorem prepareHeaders_uncompressed_size_overflow :
    (prepareHeaders [overflowHeader] []).1 ≠
      headerListUncompressedSize [overflowHeader] := by
  have hlen : overflowHeader.name.length = 4294967296 :=
    List.length_replicate 4294967296 'a'
  have hval : overflowHeader.value.length = 0 := rfl
  have hL : (prepareHeaders [overflowHeader] []).1 =
      (4294967296 + 0 + 2) % uint32Mod := by
    rw [prepareHeaders_single, hlen, hval]
  have hR : headerListUncompressedSize [overflowHeader] = 4294967296 + 0 + 2 := by
    rw [headerListUncompressedSize_single, hlen, hval]
  rw [hL, hR]
  have hM : uint32Mod = 4294967296 := rfl
  rw [hM]
  omega

/- ===================================================================
   Part 2: Upstream session lifecycle, transactions and GOAWAY.
   The session implementation is not in the source tree (only its test
   file is), so these definitions are modelled from the specification.
   =================================================================== -/

/-- Modelled from the spec: the Session lifecycle state, section 3 —
"current lifecycle state ∈ {Connecting, Open, Draining, Closed}". -/
inductive SessionState
  | Connecting
  | Open
  | Draining
  | Closed
deriving DecidableEq

/-- Modelled from the spec: a transport address (host and port), used for
the local and peer addresses snapshotted by the missing session code. -/
structure SocketAddress where
  host : String
  port : Nat
deriving DecidableEq

/-- Modelled from the spec: the proxygen error kinds named in the error
taxonomy, section 7 and section 4. -/
inductive ProxygenError
  | StreamUnacknowledged
  | Shutdown
  | HeaderDecodeError
  | EarlyDataFailed
deriving DecidableEq

/-- Modelled from the spec: a Transaction as handed back by
`newTransaction`, "keyed by QUIC stream id" and holding the handler
reference it was bound to (section 3). -/
structure HTTPTransaction where
  streamId : Nat
  handler : Nat
deriving DecidableEq

/-- Modelled from the spec: the Session state relevant to the lifecycle,
transaction-registry and GOAWAY claims (section 3): lifecycle state,
socket health, the ids of the active Transactions, the next
client-initiated bidirectional stream id, the addresses snapshotted at
connect, and the peer-advertised GOAWAY last-id. The missing code is
`HQUpstreamSession` and its base classes. -/
structure Session where
  state : SessionState
  sockGood : Bool
  activeTxns : List Nat
  nextStreamId : Nat
  localAddr : Option SocketAddress
  peerAddr : Option SocketAddress
  peerGoawayLastId : Option Nat
deriving DecidableEq

/-- Modelled from the spec: handler-facing callbacks relevant to the
GOAWAY claims — `onGoaway(lastId)` and `onError(HTTPException)` carrying a
proxygen error kind and a message (section 6). -/
inductive SessionEvent
  | onGoaway (txnId lastId : Nat)
  | onError (txnId : Nat) (kind : ProxygenError) (msg : String)
deriving DecidableEq

/-- Modelled from the spec: `newTransaction(handler)` — "created by
`newTransaction(handler)` only when Session is Open AND the socket is
healthy" (section 3); "`newTransaction` returns nothing iff (Session not
Open) OR (socket not good)" (section 8). On success the fresh Transaction
is bound to the given handler and registered under the next
client-initiated stream id. The missing code is
`HQUpstreamSession::newTransaction`. -/
def newTransaction (s : Session) (handler : Nat) :
    Option HTTPTransaction × Session :=
  if s.state = SessionState.Open ∧ s.sockGood = true then
    (some { streamId := s.nextStreamId, handler := handler },
     { s with
       activeTxns := s.activeTxns ++ [s.nextStreamId]
       nextStreamId := s.nextStreamId + 4 })
  else (none, s)

/-- Modelled from the spec: the error message accompanying a
StreamUnacknowledged GOAWAY cut-off, "carrying a message of the form
`StreamUnacknowledged on transaction id: <id>`" (section 4.1). -/
def goawayErrorMsg (id : Nat) : String :=
  "StreamUnacknowledged on transaction id: " ++ toString id

/-- The StreamUnacknowledged error event delivered to the transaction
with the given stream id. -/
def mkUnackError (t : Nat) : SessionEvent :=
  SessionEvent.onError t ProxygenError.StreamUnacknowledged (goawayErrorMsg t)

/-- Modelled from the spec: receipt of a GOAWAY frame with `last = L`
(section 4.1) — deliver `onGoaway` to every active Transaction once per
received frame; terminate every active Transaction with id > L with error
kind StreamUnacknowledged and the prescribed message; keep Transactions
with id ≤ L so they may complete; record the peer GOAWAY last-id and move
to Draining so that no new Transactions may start. The missing code is
`HQSession::onGoaway` and `HQSession::errorOnTransactionIDs`. -/
def onGoawayFrame (s : Session) (lastId : Nat) : Session × List SessionEvent :=
  let goawayCbs := s.activeTxns.map (fun t => SessionEvent.onGoaway t lastId)
  let errs := (s.activeTxns.filter (fun t => decide (lastId < t))).map mkUnackError
  ({ s with
     state := SessionState.Draining
     peerGoawayLastId := some lastId
     activeTxns := s.activeTxns.filter (fun t => decide (t ≤ lastId)) },
   goawayCbs ++ errs)

/-- Modelled from the spec: transport-ready transition — "Connecting →
Open on `transportReady`", with the local and peer addresses "snapshotted
at connect, readable after drop" (sections 3 and 4.7). -/
def connectSession (s : Session) (la pa : SocketAddress) : Session :=
  { s with
    state := SessionState.Open
    sockGood := true
    localAddr := some la
    peerAddr := some pa }

/-- Modelled from the spec: "A synchronous `dropConnection` transitions
directly to Closed, tears down all Transactions" (section 4.7); the
address snapshots are left untouched. The missing code is
`HQSession::dropConnection`. -/
def dropConnection (s : Session) : Session :=
  { s with
    state := SessionState.Closed
    sockGood := false
    activeTxns := [] }

/-- Modelled from the spec: `getLocalAddress` reads the local-address
snapshot held by the session (section 6). -/
def getLocalAddress (s : Session) : Option SocketAddress :=
  s.localAddr

/-- Modelled from the spec: `getPeerAddress` reads the peer-address
snapshot held by the session (section 6). -/
def getPeerAddress (s : Session) : Option SocketAddress :=
  s.peerAddr

/-- Recognizer for an onError event with kind StreamUnacknowledged
delivered to the transaction with stream id `t` (any message). -/
def isStreamUnackErrorFor (t : Nat) : SessionEvent → Bool
  | SessionEvent.onError t2 ProxygenError.StreamUnacknowledged _ => t2 == t
  | _ => false

/-- Recognizer for an onGoaway callback delivered to the transaction with
stream id `t`. -/
def isGoawayCbFor (t : Nat) : SessionEvent → Bool
  | SessionEvent.onGoaway t2 _ => t2 == t
  | _ => false

theorem countP_map_unack (l : List Nat) (t : Nat) :
    (l.map mkUnackError).countP (isStreamUnackErrorFor t) = l.count t := by
  induction l with
  | nil => simp
  | cons a l ih =>
    simp only [List.map_cons, List.countP_cons, List.count_cons, ih,
      isStreamUnackErrorFor, mkUnackError]

theorem countP_map_goaway (l : List Nat) (t lastId : Nat) :
    (l.map (fun t2 => SessionEvent.onGoaway t2 lastId)).countP (isGoawayCbFor t) =
      l.count t := by
  induction l with
  | nil => simp
  | cons a l ih =>
    simp only [List.map_cons, List.countP_cons, List.count_cons, ih, isGoawayCbFor]

theorem countP_goawayCbs_zero (l : List Nat) (t lastId : Nat) :
    (l.map (fun t2 => SessionEvent.onGoaway t2 lastId)).countP
      (isStreamUnackErrorFor t) = 0 := by
  induction l with
  | nil => simp
  | cons a l ih => simp [List.countP_cons, ih, isStreamUnackErrorFor]

theorem countP_errs_zero_goaway (l : List Nat) (t : Nat) :
    (l.map mkUnackError).countP (isGoawayCbFor t) = 0 := by
  induction l with
  | nil => simp
  | cons a l ih => simp [List.countP_cons, ih, isGoawayCbFor, mkUnackError]

theorem count_filter_of_pos {l : List Nat} {p : Nat → Bool} {t : Nat}
    (h : p t = true) : (l.filter p).count t = l.count t := by
  induction l with
  | nil => simp
  | cons a l ih =>
    by_cases ha : a = t
    · subst ha
      simp [List.filter_cons, h, List.count_cons, ih]
    · by_cases hp : p a = true <;>
        simp [List.filter_cons, hp, List.count_cons, ha, ih]

/-- C1: upon GOAWAY with last-stream-id L, every transaction active at
that moment whose stream id exceeds L receives exactly one onError with
kind StreamUnacknowledged and message "StreamUnacknowledged on
transaction id: <id>"; a transaction with id ≤ L receives no
StreamUnacknowledged error and stays active so it may complete normally. -/
theorem goaway_streams_unacknowledged (s : Session) (L t : Nat)
    (hnd : s.activeTxns.Nodup) (hmem : t ∈ s.activeTxns) :
    (L < t →
      (onGoawayFrame s L).2.countP (isStreamUnackErrorFor t) = 1 ∧
      SessionEvent.onError t ProxygenError.StreamUnacknowledged
        (goawayErrorMsg t) ∈ (onGoawayFrame s L).2) ∧
    (t ≤ L →
      (onGoawayFrame s L).2.countP (isStreamUnackErrorFor t) = 0 ∧
      t ∈ (onGoawayFrame s L).1.activeTxns) := by
  constructor
  · intro hlt
    constructor
    · simp only [onGoawayFrame, List.countP_append, countP_goawayCbs_zero,
        countP_map_unack, Nat.zero_add]
      rw [count_filter_of_pos (by simp [hlt])]
      exact List.count_eq_one_of_mem hnd hmem
    · simp only [onGoawayFrame, List.mem_append]
      right
      have ht : t ∈ s.activeTxns.filter (fun x => decide (L < x)) :=
        List.mem_filter.mpr ⟨hmem, by simp [hlt]⟩
      exact List.mem_map_of_mem mkUnackError ht
  · intro hle
    constructor
    · simp only [onGoawayFrame, List.countP_append, countP_goawayCbs_zero,
        countP_map_unack, Nat.zero_add]
      rw [List.count_eq_zero]
      intro hcontra
      have := (List.mem_filter.mp hcontra).2
      simp at this
      omega
    · simp only [onGoawayFrame]
      exact List.mem_filter.mpr ⟨hmem, by simp [hle]⟩

/-- A sample session with four active transactions on stream ids 0, 4, 8
and 12, as opened by the GoawayStreamsUnacknowledged test. -/
def sampleSession : Session :=
  { state := SessionState.Open
    sockGood := true
    activeTxns := [0, 4, 8, 12]
    nextStreamId := 16
    localAddr := some { host := "0.0.0.0", port := 0 }
    peerAddr := some { host := "127.0.0.0", port := 443 }
    peerGoawayLastId := none }

theorem goaway_streams_unacknowledged_witness :
    sampleSession.activeTxns.Nodup ∧ 12 ∈ sampleSession.activeTxns ∧
    ((8 < 12 →
      (onGoawayFrame sampleSession 8).2.countP (isStreamUnackErrorFor 12) = 1 ∧
      SessionEvent.onError 12 ProxygenError.StreamUnacknowledged
        (goawayErrorMsg 12) ∈ (onGoawayFrame sampleSession 8).2) ∧
     (12 ≤ 8 →
      (onGoawayFrame sampleSession 8).2.countP (isStreamUnackErrorFor 12) = 0 ∧
      12 ∈ (onGoawayFrame sampleSession 8).1.activeTxns)) :=
  ⟨by decide, by decide,
   goaway_streams_unacknowledged sampleSession 8 12 (by decide) (by decide)⟩

/-- C8: each received GOAWAY frame delivers exactly one onGoaway callback
to every transaction active at the moment of receipt; when a second GOAWAY
arrives while a transaction is still active, its onGoaway has then been
invoked exactly twice over the two frames. -/
theorem goaway_callback_once_per_frame (s : Session) (L1 L2 t : Nat)
    (hnd : s.activeTxns.Nodup) (hmem : t ∈ s.activeTxns) :
    (onGoawayFrame s L1).2.countP (isGoawayCbFor t) = 1 ∧
    (t ≤ L1 →
      ((onGoawayFrame s L1).2 ++
        (onGoawayFrame (onGoawayFrame s L1).1 L2).2).countP (isGoawayCbFor t) = 2) := by
  have hone : ∀ (s2 : Session), s2.activeTxns.Nodup → t ∈ s2.activeTxns →
      (onGoawayFrame s2 L2).2.countP (isGoawayCbFor t) = 1 := by
    intro s2 hnd2 hmem2
    simp only [onGoawayFrame, List.countP_append, countP_map_goaway,
      countP_errs_zero_goaway, Nat.add_zero]
    exact List.count_eq_one_of_mem hnd2 hmem2
  have hfst : (onGoawayFrame s L1).2.countP (isGoawayCbFor t) = 1 := by
    simp only [onGoawayFrame, List.countP_append, countP_map_goaway,
      countP_errs_zero_goaway, Nat.add_zero]
    exact List.count_eq_one_of_mem hnd hmem
  refine ⟨hfst, fun hle => ?_⟩
  rw [List.countP_append, hfst]
  have hsnd :
      (onGoawayFrame (onGoawayFrame s L1).1 L2).2.countP (isGoawayCbFor t) = 1 := by
    apply hone
    · simp only [onGoawayFrame]
      exact hnd.filter _
    · simp only [onGoawayFrame]
      exact List.mem_filter.mpr ⟨hmem, by simp [hle]⟩
  omega

theorem goaway_callback_once_per_frame_witness :
    sampleSession.activeTxns.Nodup ∧ 4 ∈ sampleSession.activeTxns ∧
    ((onGoawayFrame sampleSession 100).2.countP (isGoawayCbFor 4) = 1 ∧
     (4 ≤ 100 →
      ((onGoawayFrame sampleSession 100).2 ++
        (onGoawayFrame (onGoawayFrame sampleSession 100).1 8).2).countP
          (isGoawayCbFor 4) = 2)) :=
  ⟨by decide, by decide,
   goaway_callback_once_per_frame sampleSession 100 8 4 (by decide) (by decide)⟩

/-- C3: `newTransaction(handler)` returns no transaction iff the session
is not Open or the socket is not good; otherwise it returns a transaction
bound to the given handler under the next stream id.  In particular after
a received GOAWAY (which moves the session to Draining) it returns
nothing. -/
theorem newTransaction_none_iff (s : Session) (h : Nat) :
    ((newTransaction s h).1 = none ↔
      (s.state ≠ SessionState.Open ∨ s.sockGood = false)) ∧
    (s.state = SessionState.Open ∧ s.sockGood = true →
      (newTransaction s h).1 = some { streamId := s.nextStreamId, handler := h }) ∧
    (∀ L, (newTransaction (onGoawayFrame s L).1 h).1 = none) := by
  refine ⟨?_, ?_, ?_⟩
  · by_cases hc : s.state = SessionState.Open ∧ s.sockGood = true
    · simp [newTransaction, hc, hc.1, hc.2]
    · rw [not_and_or] at hc
      have hc2 : s.state ≠ SessionState.Open ∨ s.sockGood = false := by
        rcases hc with hc | hc
        · exact Or.inl hc
        · exact Or.inr (by simpa using hc)
      have hcond : ¬(s.state = SessionState.Open ∧ s.sockGood = true) := by
        rcases hc2 with hc2 | hc2 <;> simp [hc2]
      simp [newTransaction, hcond, hc2]
  · intro hc
    simp [newTransaction, hc]
  · intro L
    simp [newTransaction, onGoawayFrame]

theorem newTransaction_none_iff_witness :
    (((newTransaction sampleSession 7).1 = none ↔
      (sampleSession.state ≠ SessionState.Open ∨ sampleSession.sockGood = false)) ∧
     (sampleSession.state = SessionState.Open ∧ sampleSession.sockGood = true →
      (newTransaction sampleSession 7).1 =
        some { streamId := sampleSession.nextStreamId, handler := 7 }) ∧
     (∀ L, (newTransaction (onGoawayFrame sampleSession L).1 7).1 = none)) :=
  newTransaction_none_iff sampleSession 7

/-- C9: the local and peer addresses are snapshotted at connect time and
`dropConnection` changes neither: after `dropConnection`,
`getLocalAddress` and `getPeerAddress` return the same values that were
observable while the session was connected. -/
theorem addresses_stable_after_dropConnection (s : Session)
    (la pa : SocketAddress) :
    getLocalAddress (dropConnection (connectSession s la pa)) =
      getLocalAddress (connectSession s la pa) ∧
    getPeerAddress (dropConnection (connectSession s la pa)) =
      getPeerAddress (connectSession s la pa) ∧
    getLocalAddress (dropConnection (connectSession s la pa)) = some la ∧
    getPeerAddress (dropConnection (connectSession s la pa)) = some pa ∧
    (∀ s2 : Session,
      getLocalAddress (dropConnection s2) = getLocalAddress s2 ∧
      getPeerAddress (dropConnection s2) = getPeerAddress s2) := by
  refine ⟨rfl, rfl, rfl, rfl, fun s2 => ⟨rfl, rfl⟩⟩

/- ===================================================================
   Part 3: Egress control stream and the SETTINGS-once rule.
   =================================================================== -/

/-- Modelled from the spec: the frames an egress control codec can write
for the purposes of the SETTINGS-once rule (section 4.1). -/
inductive ControlFrame
  | settingsFrame
  | goawayFrame (lastId : Nat)
deriving DecidableEq

/-- Modelled from the spec: the egress control codec state — the
`sentSettings_` flag and the frames written so far on the egress control
stream. The missing code is `HQControlCodec` and
`HQSession::sendSettings`. -/
structure HQControlCodec where
  sentSettings : Bool
  written : List ControlFrame
deriving DecidableEq

/-- Result of an operation guarded by a fatal programming check: either
the updated codec, or an aborted process carrying the check message. -/
inductive CheckResult
  | ok (c : HQControlCodec)
  | checkFailed (msg : String)
deriving DecidableEq

/-- Modelled from the spec: generating SETTINGS on the egress control
codec — "SETTINGS is sent at most once on the egress control stream;
sending it twice is a programming error (abort)" (section 3).  The test
observes the duplicate attempt dying with "Check failed: !sentSettings_",
so the guard checks the `sentSettings_` flag before writing. -/
def generateSettings (c : HQControlCodec) : CheckResult :=
  if c.sentSettings then CheckResult.checkFailed "Check failed: !sentSettings_"
  else CheckResult.ok
    { sentSettings := true, written := c.written ++ [ControlFrame.settingsFrame] }

/-- A fresh egress control codec: no SETTINGS sent, nothing written. -/
def initControlCodec : HQControlCodec :=
  { sentSettings := false, written := [] }

/-- Invariant tying the `sentSettings_` flag to the number of SETTINGS
frames on the wire: at most one, and none before the flag is set. -/
def settingsAtMostOnce (c : HQControlCodec) : Prop :=
  c.written.count ControlFrame.settingsFrame = (if c.sentSettings then 1 else 0)

/-- C7: the session writes SETTINGS on its egress control stream at most
once per connection — the fresh codec has written none, a successful
`generateSettings` writes exactly one and every reachable codec satisfies
the at-most-once invariant — and a second attempt on the same codec is the
fatal programming check "Check failed: !sentSettings_" rather than a
second frame on the wire. -/
theorem settings_sent_at_most_once :
    settingsAtMostOnce initControlCodec ∧
    (∀ c c2 : HQControlCodec, settingsAtMostOnce c →
      generateSettings c = CheckResult.ok c2 →
      settingsAtMostOnce c2 ∧ c2.written.count ControlFrame.settingsFrame = 1) ∧
    (∀ c : HQControlCodec, c.sentSettings = true →
      generateSettings c = CheckResult.checkFailed "Check failed: !sentSettings_") := by
  refine ⟨by simp [settingsAtMostOnce, initControlCodec], ?_, ?_⟩
  · intro c c2 hinv hok
    cases hcs : c.sentSettings
    · rw [generateSettings, hcs] at hok
      simp only [Bool.false_eq_true, if_false, CheckResult.ok.injEq] at hok
      subst hok
      simp only [settingsAtMostOnce, hcs, if_false] at hinv
      constructor <;>
        simp [settingsAtMostOnce, List.count_append, hinv]
    · rw [generateSettings, hcs] at hok
      simp at hok
  · intro c hs
    simp [generateSettings, hs]

theorem settings_sent_at_most_once_witness :
    settingsAtMostOnce initControlCodec ∧
    (generateSettings initControlCodec =
      CheckResult.ok { sentSettings := true,
                       written := [ControlFrame.settingsFrame] }) ∧
    (generateSettings { sentSettings := true,
                        written := [ControlFrame.settingsFrame] } =
      CheckResult.checkFailed "Check failed: !sentSettings_") :=
  ⟨(settings_sent_at_most_once).1,
   by decide,
   (settings_sent_at_most_once).2.2
     { sentSettings := true, written := [ControlFrame.settingsFrame] } rfl⟩

/- ===================================================================
   Part 4: QPACK gate — blocked header delivery (spec section 4.4).
   =================================================================== -/

/-- Modelled from the spec: the per-stream wire events of a response, in
wire-arrival order — a header block tagged with its required QPACK insert
count, body bytes, and end-of-message (section 4.4). -/
inductive StreamEvent
  | headerBlock (requiredInsertCount : Nat)
  | bodyBytes (len : Nat)
  | endOfMessage
deriving DecidableEq

/-- Modelled from the spec: the handler-facing events produced by the
stream ingress path through the QPACK gate (sections 4.4 and 6). -/
inductive GateEvent
  | onHeaders (requiredInsertCount : Nat)
  | onBody (len : Nat)
  | onEOM
  | onError (kind : ProxygenError)
  | detachTransaction
deriving DecidableEq

/-- The insert count a wire event requires before it may be delivered:
the required insert count for a header block, zero otherwise. -/
def requiredCount : StreamEvent → Nat
  | StreamEvent.headerBlock ric => ric
  | StreamEvent.bodyBytes _ => 0
  | StreamEvent.endOfMessage => 0

/-- The handler events produced by delivering one wire event: headers,
body, or EOM followed by the transaction detach. -/
def emitEvent : StreamEvent → List GateEvent
  | StreamEvent.headerBlock ric => [GateEvent.onHeaders ric]
  | StreamEvent.bodyBytes n => [GateEvent.onBody n]
  | StreamEvent.endOfMessage => [GateEvent.onEOM, GateEvent.detachTransaction]

/-- The handler events of a whole wire-event list, in order. -/
def emitAll : List StreamEvent → List GateEvent
  | [] => []
  | ev :: rest => emitEvent ev ++ emitAll rest

/-- Modelled from the spec: draining the per-stream queue — events are
delivered in wire-arrival order, stopping at the first header block whose
required insert count exceeds the decoder's known insert count `k`; the
undelivered tail stays queued (section 4.4: "header events are delivered
to a Transaction only when the decoder has the required table state",
"the Gate preserves per-stream order"). -/
def drainQueue (k : Nat) : List StreamEvent → List GateEvent × List StreamEvent
  | [] => ([], [])
  | ev :: rest =>
    if requiredCount ev ≤ k then
      let res := drainQueue k rest
      (emitEvent ev ++ res.1, res.2)
    else ([], ev :: rest)

/-- Whether the queue head is blocked on the QPACK dynamic table at known
insert count `k`. -/
def blockedAt (k : Nat) : List StreamEvent → Bool
  | [] => false
  | ev :: _ => decide (k < requiredCount ev)

/-- Modelled from the spec: the per-stream QPACK gate state — the
decoder's known insert count, the queued (undelivered) wire events in
arrival order, and whether the transaction has been destroyed (section
4.4). The missing code is the `HQSession` ingress path through
`QPACKCodec` blocked-streams handling. -/
structure GateState where
  knownInsertCount : Nat
  queued : List StreamEvent
  destroyed : Bool
deriving DecidableEq

/-- The gate for a fresh stream: no inserts known, nothing queued, the
transaction alive. -/
def initGate : GateState :=
  { knownInsertCount := 0, queued := [], destroyed := false }

/-- True when the emitted events destroy the transaction (an EOM was
delivered, so the handler was detached). -/
def emitsDetach (outs : List GateEvent) : Bool :=
  outs.contains GateEvent.detachTransaction

/-- Modelled from the spec: stream bytes arriving for the transaction —
they are appended to the per-stream queue and as much as the QPACK table
state allows is delivered, in order (section 4.4).  After the transaction
has been destroyed nothing is delivered. -/
def recvStreamEvents (st : GateState) (evs : List StreamEvent) :
    GateState × List GateEvent :=
  if st.destroyed then (st, [])
  else
    let res := drainQueue st.knownInsertCount (st.queued ++ evs)
    ({ st with queued := res.2, destroyed := emitsDetach res.1 }, res.1)

/-- Modelled from the spec: QPACK encoder-stream bytes raising the known
insert count — "When encoder-stream bytes raise the insert count past a
queued entry's requirement, the entry fires and headers are delivered in
original arrival order" (section 4.4).  After the transaction has been
destroyed this is a no-op: no callback of any kind is delivered. -/
def recvEncoderStreamData (st : GateState) (newCount : Nat) :
    GateState × List GateEvent :=
  if st.destroyed then (st, [])
  else
    let k := max st.knownInsertCount newCount
    let res := drainQueue k st.queued
    ({ knownInsertCount := k, queued := res.2, destroyed := emitsDetach res.1 },
     res.1)

/-- Modelled from the spec: expiry of the gate's timer — "if the timer
elapses before the table advances, the pending entry's Transaction
receives `onError` with a header-decoding error and is detached"
(section 4.4). -/
def gateTimerExpire (st : GateState) : GateState × List GateEvent :=
  if st.destroyed then (st, [])
  else if blockedAt st.knownInsertCount st.queued then
    ({ st with queued := [], destroyed := true },
     [GateEvent.onError ProxygenError.HeaderDecodeError,
      GateEvent.detachTransaction])
  else (st, [])

theorem drainQueue_no_blocked_headers (k : Nat) (evs : List StreamEvent)
    (ric : Nat) (hmem : GateEvent.onHeaders ric ∈ (drainQueue k evs).1) :
    ric ≤ k := by
  induction evs with
  | nil => simp [drainQueue] at hmem
  | cons ev rest ih =>
    by_cases hc : requiredCount ev ≤ k
    · simp only [drainQueue, hc, if_true, List.mem_append] at hmem
      rcases hmem with hmem | hmem
      · cases ev with
        | headerBlock ric2 =>
          simp only [emitEvent, List.mem_singleton, GateEvent.onHeaders.injEq] at hmem
          subst hmem
          simpa [requiredCount] using hc
        | bodyBytes n => simp [emitEvent] at hmem
        | endOfMessage => simp [emitEvent] at hmem
      · exact ih hmem
    · simp [drainQueue, hc] at hmem

theorem drainQueue_all_deliverable (k : Nat) (evs : List StreamEvent)
    (hall : ∀ ev ∈ evs, requiredCount ev ≤ k) :
    drainQueue k evs = (emitAll evs, []) := by
  induction evs with
  | nil => simp [drainQueue, emitAll]
  | cons ev rest ih =>
    have hev : requiredCount ev ≤ k := hall ev (by simp)
    have hrest : ∀ e ∈ rest, requiredCount e ≤ k := fun e he => hall e (by simp [he])
    simp [drainQueue, hev, ih hrest, emitAll]

/-- C2: no onHeaders for a header block whose required QPACK insert count
exceeds the decoder's known insert count is ever delivered (first
conjunct, for any drain); in the DelayedQPACK scenario — an interim and a
final response header block, body and EOM arriving while the encoder
stream is withheld — nothing is delivered, and once the encoder data
raises the known count both onHeaders fire in wire-arrival order followed
by body, EOM and detach. -/
theorem delayed_qpack_header_gate (k : Nat) (evs : List StreamEvent)
    (r1 r2 n : Nat) (h1 : 0 < r1) :
    (∀ ric, GateEvent.onHeaders ric ∈ (drainQueue k evs).1 → ric ≤ k) ∧
    (recvStreamEvents initGate
      [StreamEvent.headerBlock r1, StreamEvent.headerBlock r2,
       StreamEvent.bodyBytes n, StreamEvent.endOfMessage]).2 = [] ∧
    (recvEncoderStreamData
      (recvStreamEvents initGate
        [StreamEvent.headerBlock r1, StreamEvent.headerBlock r2,
         StreamEvent.bodyBytes n, StreamEvent.endOfMessage]).1
      (max r1 r2)).2 =
      [GateEvent.onHeaders r1, GateEvent.onHeaders r2, GateEvent.onBody n,
       GateEvent.onEOM, GateEvent.detachTransaction] := by
  have hr : ¬(requiredCount (StreamEvent.headerBlock r1) ≤ 0) := by
    simp [requiredCount]
    omega
  have hstep1 : recvStreamEvents initGate
      [StreamEvent.headerBlock r1, StreamEvent.headerBlock r2,
       StreamEvent.bodyBytes n, StreamEvent.endOfMessage] =
      ({ knownInsertCount := 0
         queued := [StreamEvent.headerBlock r1, StreamEvent.headerBlock r2,
                    StreamEvent.bodyBytes n, StreamEvent.endOfMessage]
         destroyed := false }, []) := by
    simp [recvStreamEvents, initGate, drainQueue, hr, emitsDetach]
  have hall : ∀ ev ∈ [StreamEvent.headerBlock r1, StreamEvent.headerBlock r2,
      StreamEvent.bodyBytes n, StreamEvent.endOfMessage],
      requiredCount ev ≤ max r1 r2 := by
    intro ev hev
    simp only [List.mem_cons, List.not_mem_nil, or_false] at hev
    rcases hev with rfl | rfl | rfl | rfl <;> simp [requiredCount]
  refine ⟨fun ric hm => drainQueue_no_blocked_headers k evs ric hm, ?_, ?_⟩
  · rw [hstep1]
  · rw [hstep1]
    simp only [recvEncoderStreamData, Bool.false_eq_true, if_false,
      Nat.zero_max]
    rw [drainQueue_all_deliverable (max r1 r2) _ hall]
    simp [emitAll, emitEvent]

theorem delayed_qpack_header_gate_witness :
    0 < 1 ∧
    ((∀ ric, GateEvent.onHeaders ric ∈ (drainQueue 0 [StreamEvent.headerBlock 2]).1 →
        ric ≤ 0) ∧
     (recvStreamEvents initGate
       [StreamEvent.headerBlock 1, StreamEvent.headerBlock 1,
        StreamEvent.bodyBytes 100, StreamEvent.endOfMessage]).2 = [] ∧
     (recvEncoderStreamData
       (recvStreamEvents initGate
         [StreamEvent.headerBlock 1, StreamEvent.headerBlock 1,
          StreamEvent.bodyBytes 100, StreamEvent.endOfMessage]).1
       (max 1 1)).2 =
       [GateEvent.onHeaders 1, GateEvent.onHeaders 1, GateEvent.onBody 100,
        GateEvent.onEOM, GateEvent.detachTransaction]) :=
  ⟨by decide,
   delayed_qpack_header_gate 0 [StreamEvent.headerBlock 2] 1 1 100 (by decide)⟩

/-- C5: if the QPACK encoder data needed by a blocked header block never
arrives, the timer expiry delivers exactly one onError with a
header-decoding error followed by exactly one detachTransaction, the
transaction is destroyed, and delivering the withheld encoder data
afterwards is a no-op: no callback of any kind is delivered for that
stream. -/
theorem delayed_qpack_timeout (r n : Nat) (h1 : 0 < r) :
    (recvStreamEvents initGate
      [StreamEvent.headerBlock r, StreamEvent.bodyBytes n,
       StreamEvent.endOfMessage]).2 = [] ∧
    (gateTimerExpire
      (recvStreamEvents initGate
        [StreamEvent.headerBlock r, StreamEvent.bodyBytes n,
         StreamEvent.endOfMessage]).1).2 =
      [GateEvent.onError ProxygenError.HeaderDecodeError,
       GateEvent.detachTransaction] ∧
    (gateTimerExpire
      (recvStreamEvents initGate
        [StreamEvent.headerBlock r, StreamEvent.bodyBytes n,
         StreamEvent.endOfMessage]).1).1.destroyed = true ∧
    (recvEncoderStreamData
      (gateTimerExpire
        (recvStreamEvents initGate
          [StreamEvent.headerBlock r, StreamEvent.bodyBytes n,
           StreamEvent.endOfMessage]).1).1 r).2 = [] := by
  have hr : ¬(requiredCount (StreamEvent.headerBlock r) ≤ 0) := by
    simp [requiredCount]
    omega
  have hstep1 : recvStreamEvents initGate
      [StreamEvent.headerBlock r, StreamEvent.bodyBytes n,
       StreamEvent.endOfMessage] =
      ({ knownInsertCount := 0
         queued := [StreamEvent.headerBlock r, StreamEvent.bodyBytes n,
                    StreamEvent.endOfMessage]
         destroyed := false }, []) := by
    simp [recvStreamEvents, initGate, drainQueue, hr, emitsDetach]
  have hblocked : blockedAt 0 [StreamEvent.headerBlock r, StreamEvent.bodyBytes n,
      StreamEvent.endOfMessage] = true := by
    simp [blockedAt, requiredCount]
    omega
  have hstep2 : gateTimerExpire
      ({ knownInsertCount := 0
         queued := [StreamEvent.headerBlock r, StreamEvent.bodyBytes n,
                    StreamEvent.endOfMessage]
         destroyed := false } : GateState) =
      ({ knownInsertCount := 0, queued := [], destroyed := true },
       [GateEvent.onError ProxygenError.HeaderDecodeError,
        GateEvent.detachTransaction]) := by
    simp [gateTimerExpire, hblocked]
  refine ⟨?_, ?_, ?_, ?_⟩
  · rw [hstep1]
  · rw [hstep1, hstep2]
  · rw [hstep1, hstep2]
  · rw [hstep1, hstep2]
    simp [recvEncoderStreamData]

theorem delayed_qpack_timeout_witness :
    0 < 1 ∧
    ((recvStreamEvents initGate
       [StreamEvent.headerBlock 1, StreamEvent.bodyBytes 100,
        StreamEvent.endOfMessage]).2 = [] ∧
     (gateTimerExpire
       (recvStreamEvents initGate
         [StreamEvent.headerBlock 1, StreamEvent.bodyBytes 100,
          StreamEvent.endOfMessage]).1).2 =
       [GateEvent.onError ProxygenError.HeaderDecodeError,
        GateEvent.detachTransaction] ∧
     (gateTimerExpire
       (recvStreamEvents initGate
         [StreamEvent.headerBlock 1, StreamEvent.bodyBytes 100,
          StreamEvent.endOfMessage]).1).1.destroyed = true ∧
     (recvEncoderStreamData
       (gateTimerExpire
         (recvStreamEvents initGate
           [StreamEvent.headerBlock 1, StreamEvent.bodyBytes 100,
            StreamEvent.endOfMessage]).1).1 1).2 = []) :=
  ⟨by decide, delayed_qpack_timeout 1 100 (by decide)⟩

/- ===================================================================
   Part 5: Push coordinator — promise/stream correlation (spec 4.5).
   =================================================================== -/

/-- Modelled from the spec: the push-correlation table of the session —
parsed PushPromises keyed by push id with their associated (parent)
transaction id, the push ids whose nascent push stream has decoded its
unframed push id, and the push ids already surfaced as pushed
transactions (sections 3 and 4.5). The missing code is the
`HQSession` push-lifecycle handling. -/
structure PushCoordinator where
  promises : List (Nat × Nat)
  boundStreams : List Nat
  surfacedIds : List Nat
deriving DecidableEq

/-- Modelled from the spec: the parent-facing callback — "The associated
Transaction receives `pushedTransaction(child)` once the child is fully
materialized" (section 4.5). -/
inductive PushEvent
  | onPushedTransaction (parentTxnId pushId : Nat)
deriving DecidableEq

/-- A push coordinator with no promises, no bound streams and nothing
surfaced. -/
def initPushCoordinator : PushCoordinator :=
  { promises := [], boundStreams := [], surfacedIds := [] }

/-- The parent transaction recorded for a push id, if its promise has
been parsed. -/
def lookupPromise (ps : List (Nat × Nat)) (pid : Nat) : Option Nat :=
  match ps.find? (fun q => q.1 == pid) with
  | some q => some q.2
  | none => none

/-- Modelled from the spec: materialization — a pushed transaction
"becomes surfaceable only when *both* the PushPromise has been parsed AND
the nascent push stream has been bound to that push id (in either
order)" (section 3); it is surfaced to the parent at most once. -/
def trySurface (st : PushCoordinator) (pid : Nat) :
    PushCoordinator × List PushEvent :=
  if st.surfacedIds.contains pid then (st, [])
  else
    match lookupPromise st.promises pid, st.boundStreams.contains pid with
    | some parent, true =>
      ({ st with surfacedIds := st.surfacedIds ++ [pid] },
       [PushEvent.onPushedTransaction parent pid])
    | _, _ => (st, [])

/-- Modelled from the spec: a PushPromise frame with push id `pid` parsed
on the request stream of parent transaction `parent` — "promise is
buffered under push id; when the nascent stream binds to the same push
id, a Pushed Transaction is created and bound to the parent (associated)
stream" (section 4.5). -/
def onPushPromise (st : PushCoordinator) (pid parent : Nat) :
    PushCoordinator × List PushEvent :=
  trySurface { st with promises := st.promises ++ [(pid, parent)] } pid

/-- Modelled from the spec: a nascent push stream whose unframed preface
decoded to push id `pid` — "Stream first, then promise: symmetric"
(section 4.5). -/
def onPushStreamBound (st : PushCoordinator) (pid : Nat) :
    PushCoordinator × List PushEvent :=
  trySurface { st with boundStreams := st.boundStreams ++ [pid] } pid

/-- C4: a pushed transaction is surfaced via onPushedTransaction exactly
once, and only after both the PushPromise with push id P and the push
stream whose preface decodes to P have been observed; the half-open step
emits nothing, the completing step emits the single callback, a repeated
surfacing attempt emits nothing more, and the outcome (events and final
state) is identical whether the promise or the push stream arrives
first. -/
theorem pushed_transaction_surfaced_once (pid parent : Nat) :
    (onPushPromise initPushCoordinator pid parent).2 = [] ∧
    (onPushStreamBound (onPushPromise initPushCoordinator pid parent).1 pid).2 =
      [PushEvent.onPushedTransaction parent pid] ∧
    (onPushStreamBound initPushCoordinator pid).2 = [] ∧
    (onPushPromise (onPushStreamBound initPushCoordinator pid).1 pid parent).2 =
      [PushEvent.onPushedTransaction parent pid] ∧
    (onPushPromise (onPushStreamBound initPushCoordinator pid).1 pid parent).1 =
      (onPushStreamBound (onPushPromise initPushCoordinator pid parent).1 pid).1 ∧
    (trySurface
      (onPushStreamBound (onPushPromise initPushCoordinator pid parent).1 pid).1
      pid).2 = [] := by
  refine ⟨?_, ?_, ?_, ?_, ?_, ?_⟩ <;>
    simp [onPushPromise, onPushStreamBound, trySurface, initPushCoordinator,
      lookupPromise]

/- ===================================================================
   Part 6: Partial reliability — peer-initiated body skip (spec 4.6).
   =================================================================== -/

/-- Modelled from the spec: the per-transaction partial-reliability
ingress state — the logical body offset, counting every body byte already
consumed or skipped (section 4.6). -/
structure PrTxnState where
  bodyOffset : Nat
deriving DecidableEq

/-- Modelled from the spec: the wire-side items of a partially-reliable
body — body bytes arriving, or a peer-declared skip of the next bytes
(section 4.6). -/
inductive PrWireItem
  | bodyArrives (len : Nat)
  | peerSkip (delta : Nat)
deriving DecidableEq

/-- Modelled from the spec: the handler-facing partial-reliability events
(section 6): body bytes reported at an explicit offset, a skip reported
at the advanced offset, and EOM. -/
inductive PrEvent
  | onBodyWithOffset (offset len : Nat)
  | onBodySkipped (newBodyOffset : Nat)
  | onEOM
deriving DecidableEq

/-- Modelled from the spec: one wire item processed — body bytes are
surfaced at the current logical offset and advance it; a peer skip of Δ
"advances its logical body offset by Δ and surfaces
`onBodySkipped(newBodyOffset)`" (section 4.6). -/
def prStep (st : PrTxnState) : PrWireItem → PrTxnState × List PrEvent
  | PrWireItem.bodyArrives n =>
    ({ bodyOffset := st.bodyOffset + n },
     [PrEvent.onBodyWithOffset st.bodyOffset n])
  | PrWireItem.peerSkip d =>
    ({ bodyOffset := st.bodyOffset + d },
     [PrEvent.onBodySkipped (st.bodyOffset + d)])

/-- The events of a whole wire-item script, in order, threading the
logical body offset through. -/
def prRunFrom (st : PrTxnState) : List PrWireItem → PrTxnState × List PrEvent
  | [] => (st, [])
  | item :: rest =>
    let a := prStep st item
    let b := prRunFrom a.1 rest
    (b.1, a.2 ++ b.2)

/-- Modelled from the spec: the full delivery of a partially-reliable
response body of the given content length — the script's events followed
by onEOM once the logical body offset has reached the content length
(sections 4.6 and 8, scenario 7). -/
def prDeliver (contentLength : Nat) (script : List PrWireItem) : List PrEvent :=
  let r := prRunFrom { bodyOffset := 0 } script
  if r.1.bodyOffset = contentLength then r.2 ++ [PrEvent.onEOM] else r.2

/-- C6: for a partially-reliable response of content length 3·Δ delivered
as body(Δ), peer skip(Δ), body(Δ), the handler observes
onBodyWithOffset(0), onBodySkipped(2Δ), onBodyWithOffset(2Δ), onEOM; a
peer skip advances the logical body offset by Δ past the consumed bytes
and subsequent body bytes are reported at the advanced offset. -/
theorem pr_body_skip_body_scripted (d : Nat) :
    prDeliver (3 * d)
      [PrWireItem.bodyArrives d, PrWireItem.peerSkip d, PrWireItem.bodyArrives d] =
      [PrEvent.onBodyWithOffset 0 d, PrEvent.onBodySkipped (2 * d),
       PrEvent.onBodyWithOffset (2 * d) d, PrEvent.onEOM] ∧
    (∀ st : PrTxnState, ∀ delta : Nat,
      (prStep st (PrWireItem.peerSkip delta)).1.bodyOffset =
        st.bodyOffset + delta ∧
      (prStep st (PrWireItem.peerSkip delta)).2 =
        [PrEvent.onBodySkipped (st.bodyOffset + delta)]) ∧
    (∀ st : PrTxnState, ∀ n : Nat,
      (prStep st (PrWireItem.bodyArrives n)).2 =
        [PrEvent.onBodyWithOffset st.bodyOffset n]) := by
  refine ⟨?_, fun st delta => ⟨rfl, rfl⟩, fun st n => rfl⟩
  have h3 : 0 + d + d + d = 3 * d := by omega
  have h2 : 0 + d + d = 2 * d := by omega
  have h1 : (0 : Nat) + d = d := by omega
  simp only [prDeliver, prRunFrom, prStep, h3, if_pos]
  simp [h1, h2]
  omega
